import Mathlib

/-!
Verification of the CRUD web applications in this repository against their
natural-language specification.

The repository holds two near-duplicate Flask applications:

* `DogApp` — the Dog Events Tracker (`src/directory-frontend/app/application.py`):
  users with roles, dogs, and events owned by dogs, with role-gated deletion,
  cascade delete, validated forms, page routes and mirroring JSON API routes.
* `EmpApp` — the Employee Directory (`src/lambda-app/app/models.py` and
  `src/lambda-app/app/routes.py`): employees with JSON-encoded badge lists and
  exception-swallowing store helpers.

Stateful route handlers are embedded as pure functions from an explicit store
state (lists of records standing for the relational tables) to a new state plus
the observable outcome.  Machine-level details that no claim touches (password
hashing, HTTP rendering, the relational engine itself) are out of scope per the
specification and are abstracted where noted in the corresponding doc comment.
Timestamps are modelled as integer seconds; Python's
`(end - start).total_seconds() / 60` becomes exact division in `Rat`.
-/

namespace DogApp

/-- The character with code 39 (a single quote), admitted by several of the
form regular expressions in `application.py`. -/
def squote : Char := Char.ofNat 39

/-- Row of the `users` table (`class User`, application.py). The password hash
is kept abstract: `bcryptHash` below stands for the external bcrypt call. -/
structure UserRec where
  id : String
  username : String
  email : String
  password_hash : String
  full_name : String
  role : String
  is_active : Bool
deriving DecidableEq

/-- Row of the `dogs` table (`class Dog`, application.py). -/
structure DogRec where
  id : String
  name : String
  approx_age : String
  size : String
  breed_type : String
deriving DecidableEq

/-- Row of the `events` table (`class Event`, application.py).  `timestamp` is
declared `nullable=False` in the source, so it is a plain integer here, while
`end_timestamp`, `location`, `notes` and `bristol_stool_scale` are nullable
columns and become `Option`. -/
structure EventRec where
  id : String
  dog_id : String
  event_type : String
  timestamp : Int
  end_timestamp : Option Int
  location : Option String
  notes : Option String
  bristol_stool_scale : Option Nat
deriving DecidableEq

/-- The dictionary produced by `Event.to_dict` (application.py lines 136-152).
The Python code renders the two timestamps with `isoformat()`; the model keeps
the underlying instants, which is a bijective renaming of the same data. -/
structure EventDict where
  id : String
  dog_id : String
  event_type : String
  timestamp : Int
  end_timestamp : Option Int
  duration : Option Rat
  location : Option String
  notes : Option String
  bristol_stool_scale : Option Nat
deriving DecidableEq

/-- `Event.to_dict`: the `duration` field is
`(self.end_timestamp - self.timestamp).total_seconds() / 60` when
`end_timestamp` is present (a `datetime` is always truthy in Python and
`timestamp` is non-nullable, so the guard reduces to `end_timestamp` being
non-`None`), and `None` otherwise. -/
def EventRec.to_dict (e : EventRec) : EventDict :=
  { id := e.id
    dog_id := e.dog_id
    event_type := e.event_type
    timestamp := e.timestamp
    end_timestamp := e.end_timestamp
    duration := e.end_timestamp.map (fun et => ((et - e.timestamp : Int) : Rat) / 60)
    location := e.location
    notes := e.notes
    bristol_stool_scale := e.bristol_stool_scale }

/-- The whole relational store of the dog variant: the `users`, `dogs` and
`events` tables. -/
structure DogState where
  users : List UserRec
  dogs : List DogRec
  events : List EventRec
deriving DecidableEq

/- ### Form validation (`DogForm`, `EventForm`, `UserForm`) -/

/-- Character class of the `DogForm.name` / `UserForm.full_name` regexp:
letters, whitespace, hyphen, quote, period. -/
def nameChar (c : Char) : Bool :=
  c.isAlpha || c.isWhitespace || decide (c = '-') || decide (c = squote) || decide (c = '.')

/-- Character class of the `DogForm.approx_age` regexp: additionally digits. -/
def ageChar (c : Char) : Bool :=
  c.isAlphanum || c.isWhitespace || decide (c = '-') || decide (c = squote) || decide (c = '.')

/-- Character class of the `DogForm.breed_type` regexp: additionally comma and
ampersand. -/
def breedChar (c : Char) : Bool :=
  nameChar c || decide (c = ',') || decide (c = '&')

/-- The `size` select field of `DogForm` is restricted to its choice list. -/
def validDogSize (s : String) : Bool :=
  s == "small" || s == "medium" || s == "large"

/-- Data submitted through `DogForm`. -/
structure DogFormData where
  name : String
  approx_age : String
  size : String
  breed_type : String
deriving DecidableEq

/-- `DogForm` validation: required-ness, length bounds and character classes of
each field, and the `size` choice list. -/
def validateDogForm (f : DogFormData) : Bool :=
  decide (2 ≤ f.name.length) && decide (f.name.length ≤ 100) && f.name.data.all nameChar &&
  decide (2 ≤ f.approx_age.length) && decide (f.approx_age.length ≤ 50) &&
    f.approx_age.data.all ageChar &&
  validDogSize f.size &&
  decide (2 ≤ f.breed_type.length) && decide (f.breed_type.length ≤ 100) &&
    f.breed_type.data.all breedChar

/-- The `event_type` select field of `EventForm` is restricted to its choice
list. -/
def validEventType (s : String) : Bool :=
  s == "walk" || s == "poop" || s == "pee" || s == "vomit" || s == "nap"

/-- The `bristol_stool_scale` select field of `EventForm` admits exactly the
empty string (rendered "Not applicable") and the strings "1" through "7";
WTForms rejects any submitted value outside the choice list in
`SelectField.pre_validate`. -/
def validateBristol (s : String) : Bool :=
  s == "" || s == "1" || s == "2" || s == "3" || s == "4" ||
    s == "5" || s == "6" || s == "7"

/-- Data submitted through `EventForm`.  The two `DateTimeField`s parse to
instants; the remaining fields arrive as raw strings. -/
structure EventFormData where
  dog_id : String
  event_type : String
  timestamp : Int
  end_timestamp : Option Int
  location : String
  notes : String
  bristol_stool_scale : String
deriving DecidableEq

/-- `EventForm` validation: the `dog_id` select is populated from
`Dog.query.all()` in `add_event` / `edit_event`, so a submitted `dog_id` must
be the id of a stored dog; `event_type` and `bristol_stool_scale` are checked
against their choice lists; `location` and `notes` have length bounds. -/
def validateEventForm (dogs : List DogRec) (f : EventFormData) : Bool :=
  dogs.any (fun d => d.id == f.dog_id) &&
  validEventType f.event_type &&
  decide (f.location.length ≤ 200) &&
  decide (f.notes.length ≤ 1000) &&
  validateBristol f.bristol_stool_scale

/-- Python's `int()` on a string of decimal digits. -/
def pyInt (s : String) : Nat :=
  s.data.foldl (fun acc c => acc * 10 + (c.toNat - 48)) 0

/-- The persisted Bristol value (`add_event` line 852, `edit_event` line 888):
`int(x) if x and x.isdigit() else None`. -/
def persistBristol (s : String) : Option Nat :=
  if s != "" && s.data.all Char.isDigit then some (pyInt s) else none

/-- The event record built by `add_event` from a validated form: optional
strings store `None` for the empty string, and the Bristol field goes through
`persistBristol`.  `fresh` stands for the random uuid suffix. -/
def mkEvent (fresh : String) (f : EventFormData) : EventRec :=
  { id := "evt-" ++ fresh
    dog_id := f.dog_id
    event_type := f.event_type
    timestamp := f.timestamp
    end_timestamp := f.end_timestamp
    location := if f.location == "" then none else some f.location
    notes := if f.notes == "" then none else some f.notes
    bristol_stool_scale := persistBristol f.bristol_stool_scale }

/-- Character class of the `UserForm.username` regexp. -/
def usernameChar (c : Char) : Bool :=
  c.isAlphanum || decide (c = '_') || decide (c = '-')

/-- Special characters required by the `UserForm.password` regexp. -/
def passwordSpecialChar (c : Char) : Bool :=
  decide (c = '@') || decide (c = '$') || decide (c = '!') || decide (c = '%') ||
    decide (c = '*') || decide (c = '?') || decide (c = '&')

/-- The `UserForm.password` regexp: the four lookaheads require a lowercase, an
uppercase, a digit and a special character somewhere, and `re.match` then
requires the first character to belong to the allowed class. -/
def passwordOk (p : String) : Bool :=
  decide (8 ≤ p.length) &&
  p.data.any Char.isLower && p.data.any Char.isUpper && p.data.any Char.isDigit &&
  p.data.any passwordSpecialChar &&
  (match p.data with
   | [] => false
   | c :: _ => c.isAlphanum || passwordSpecialChar c)

/-- Data submitted through `UserForm`. -/
structure UserFormData where
  username : String
  email : String
  full_name : String
  password : String
  role : String
deriving DecidableEq

/-- `UserForm` validation.  The email rule delegates to the external
`validators.Email` library check, abstracted here as requiring a `@`; no claim
depends on its details. -/
def validateUserForm (f : UserFormData) : Bool :=
  decide (3 ≤ f.username.length) && decide (f.username.length ≤ 80) &&
    f.username.data.all usernameChar &&
  f.email.data.contains '@' && decide (f.email.length ≤ 120) &&
  decide (2 ≤ f.full_name.length) && decide (f.full_name.length ≤ 100) &&
    f.full_name.data.all nameChar &&
  decide (8 ≤ f.password.length) && passwordOk f.password &&
  (f.role == "admin" || f.role == "manager" || f.role == "employee")

/-- Stand-in for the external `bcrypt.hashpw` call in `User.set_password`; the
hash itself is outside every claim, so an injective tag suffices. -/
def bcryptHash (p : String) : String := "bcrypt-" ++ p

/- ### Route handlers

Every page route below runs behind `@login_required`; the authenticated
caller's `current_user.role` is passed in as `role` where the handler consults
it.  Handlers that never read the role do not receive it, mirroring the absence
of any role check in their bodies. -/

/-- Outcome of the `delete` / `delete-event` routes. -/
inductive DeleteResult where
  | denied
  | deleted
  | notFound
deriving DecidableEq

/-- Outcome of the `register` route. -/
inductive RegisterResult where
  | denied
  | invalid
  | usernameTaken
  | emailTaken
  | created
deriving DecidableEq

/-- The `add` route (application.py lines 729-754): on a valid `DogForm`,
insert a dog with a fresh prefixed id; otherwise re-render with no state
change. -/
def addDogRoute (st : DogState) (f : DogFormData) (fresh : String) : DogState × Bool :=
  if validateDogForm f then
    ({ st with dogs := st.dogs ++ [⟨"dog-" ++ fresh, f.name, f.approx_age, f.size, f.breed_type⟩] },
      true)
  else (st, false)

/-- The `edit/<dog_id>` route (lines 774-807): if the dog exists and the form
validates, overwrite its four descriptive fields in place (the id is
untouched); otherwise no state change. -/
def editDogRoute (st : DogState) (dogId : String) (f : DogFormData) : DogState × Bool :=
  match st.dogs.find? (fun d => d.id == dogId) with
  | none => (st, false)
  | some _ =>
    if validateDogForm f then
      ({ st with dogs := st.dogs.map (fun d =>
          if d.id == dogId then
            { d with name := f.name, approx_age := f.approx_age,
                     size := f.size, breed_type := f.breed_type }
          else d) }, true)
    else (st, false)

/-- The `delete/<dog_id>` route (lines 809-830): non-admins are denied before
anything is read; for an admin, `db.session.delete(dog)` removes the dog and,
through the `cascade='all, delete-orphan'` relationship declared on
`Dog.events` (line 110), every event whose `dog_id` is the deleted dog's id. -/
def deleteDogRoute (role : String) (st : DogState) (dogId : String) : DogState × DeleteResult :=
  if role != "admin" then (st, .denied)
  else
    match st.dogs.find? (fun d => d.id == dogId) with
    | some _ =>
      ({ st with dogs := st.dogs.filter (fun d => !(d.id == dogId)),
                 events := st.events.filter (fun e => !(e.dog_id == dogId)) }, .deleted)
    | none => (st, .notFound)

/-- The `add-event` route (lines 833-864): on a valid `EventForm`, insert the
event built by `mkEvent`; otherwise no state change. -/
def addEventRoute (st : DogState) (f : EventFormData) (fresh : String) : DogState × Bool :=
  if validateEventForm st.dogs f then
    ({ st with events := st.events ++ [mkEvent fresh f] }, true)
  else (st, false)

/-- The `edit-event/<event_id>` route (lines 866-908): if the event exists and
the form validates, overwrite its fields in place (the id is untouched). -/
def editEventRoute (st : DogState) (eventId : String) (f : EventFormData) : DogState × Bool :=
  match st.events.find? (fun e => e.id == eventId) with
  | none => (st, false)
  | some _ =>
    if validateEventForm st.dogs f then
      ({ st with events := st.events.map (fun e =>
          if e.id == eventId then
            { e with dog_id := f.dog_id, event_type := f.event_type,
                     timestamp := f.timestamp, end_timestamp := f.end_timestamp,
                     location := if f.location == "" then none else some f.location,
                     notes := if f.notes == "" then none else some f.notes,
                     bristol_stool_scale := persistBristol f.bristol_stool_scale }
          else e) }, true)
    else (st, false)

/-- The `delete-event/<event_id>` route (lines 910-933): non-admins are denied
before anything is read; otherwise the event is removed (no cascade: events
have no children). -/
def deleteEventRoute (role : String) (st : DogState) (eventId : String) :
    DogState × DeleteResult :=
  if role != "admin" then (st, .denied)
  else
    match st.events.find? (fun e => e.id == eventId) with
    | some _ =>
      ({ st with events := st.events.filter (fun e => !(e.id == eventId)) }, .deleted)
    | none => (st, .notFound)

/-- The `register` route (lines 687-727): the admin check runs first; then the
form must validate; then username and email uniqueness are checked; finally the
new user is inserted with a fresh prefixed id and `is_active` defaulting to
true. -/
def registerRoute (role : String) (st : DogState) (f : UserFormData) (fresh : String) :
    DogState × RegisterResult :=
  if role != "admin" then (st, .denied)
  else if !(validateUserForm f) then (st, .invalid)
  else if st.users.any (fun u => u.username == f.username) then (st, .usernameTaken)
  else if st.users.any (fun u => u.email == f.email) then (st, .emailTaken)
  else
    ({ st with users := st.users ++
        [⟨"user-" ++ fresh, f.username, f.email, bcryptHash f.password, f.full_name, f.role, true⟩] },
      .created)

/- ### The view page and its JSON API mirror -/

/-- Insertion step of `ORDER BY timestamp DESC`: keep existing elements whose
timestamp is at least the new element's. -/
def insertEventDesc (e : EventRec) : List EventRec → List EventRec
  | [] => [e]
  | x :: xs => if decide (e.timestamp ≤ x.timestamp) then x :: insertEventDesc e xs
               else e :: x :: xs

/-- `ORDER BY timestamp DESC` over the event table, as an insertion sort. -/
def sortEventsDesc : List EventRec → List EventRec
  | [] => []
  | e :: es => insertEventDesc e (sortEventsDesc es)

/-- The event data rendered by the `view/<dog_id>` page (lines 756-772):
`Event.query.filter_by(dog_id=dog_id).order_by(Event.timestamp.desc()).limit(50).all()`
serialized through `Event.to_dict`. -/
def viewDogEvents (st : DogState) (dogId : String) : List EventDict :=
  ((sortEventsDesc (st.events.filter (fun e => e.dog_id == dogId))).take 50).map
    EventRec.to_dict

/-- The event data returned by `/api/dogs/<dog_id>/events` (lines 991-1002):
same query without the `limit(50)`. -/
def apiDogEventsData (st : DogState) (dogId : String) : List EventDict :=
  (sortEventsDesc (st.events.filter (fun e => e.dog_id == dogId))).map
    EventRec.to_dict

/-- The guard decorators declared on a route: `@login_required` and an
explicit `@limiter.limit(...)` decorator, identified by the name of the
config key it reads (routes without one fall back to the default limits). -/
structure RouteGuard where
  requiresLogin : Bool
  rateLimit : Option String
deriving DecidableEq

/-- Decorators of `view/<dog_id>`: `@login_required` only (no explicit
`@limiter.limit`). -/
def viewGuard : RouteGuard := ⟨true, none⟩

/-- Decorators of `/api/dogs/<dog_id>/events`: `@login_required` and
`@limiter.limit(application.config['API_RATE_LIMIT'])`. -/
def apiDogEventsGuard : RouteGuard := ⟨true, some "API_RATE_LIMIT"⟩

/- ### Login redirect target -/

/-- Model of Python's `str.startswith`. -/
def pyStartsWith (s p : String) : Bool := p.data.isPrefixOf s.data

/-- `url_for('home')`. -/
def homePath : String := "/"

/-- The post-login redirect target computed by `login` (lines 665-669):
`next_page = request.args.get('next'); if not next_page or not
next_page.startswith('/'): next_page = url_for('home')`.  `none` models a
missing `next` parameter; the empty string is falsy in Python. -/
def loginNextTarget : Option String → String
  | none => homePath
  | some s => if s = "" ∨ pyStartsWith s "/" = false then homePath else s

/-- Modelled from the spec: "restricted to same-origin relative paths".  A
URL string is a same-origin relative path when it starts with a single slash;
a leading double slash is a scheme-relative URL whose authority component (and
hence origin) is taken from the string itself. -/
def specSameOriginRelativePath (s : String) : Bool :=
  pyStartsWith s "/" && !(pyStartsWith s "//")

/- ### The operations of the dog variant, bundled for invariant statements -/

/-- One authenticated request against the dog-variant store. -/
inductive DogOp where
  | addDog (f : DogFormData) (fresh : String)
  | editDog (dogId : String) (f : DogFormData)
  | deleteDog (role : String) (dogId : String)
  | addEvent (f : EventFormData) (fresh : String)
  | editEvent (eventId : String) (f : EventFormData)
  | deleteEvent (role : String) (eventId : String)
  | registerUser (role : String) (f : UserFormData) (fresh : String)

/-- The state reached after serving one request. -/
def runOp : DogOp → DogState → DogState
  | .addDog f fresh, st => (addDogRoute st f fresh).fst
  | .editDog dogId f, st => (editDogRoute st dogId f).fst
  | .deleteDog role dogId, st => (deleteDogRoute role st dogId).fst
  | .addEvent f fresh, st => (addEventRoute st f fresh).fst
  | .editEvent eventId f, st => (editEventRoute st eventId f).fst
  | .deleteEvent role eventId, st => (deleteEventRoute role st eventId).fst
  | .registerUser role f fresh, st => (registerRoute role st f fresh).fst

/-- Referential integrity of the store: every stored event's `dog_id` is the
id of a stored dog (the `ForeignKey('dogs.id')` declaration on
`Event.dog_id`). -/
def refIntegrityB (st : DogState) : Bool :=
  st.events.all (fun ev => st.dogs.any (fun d => d.id == ev.dog_id))

end DogApp

namespace EmpApp

/- ### A model of `json.dumps` / `json.loads` on lists of strings

`Employee.badges` is a `Text` column holding `json.dumps` of a list of badge
strings, read back with `json.loads`.  The codec below reproduces the library
encoding for such lists: `["a", "b"]` with `", "` between items, each string
quoted with `"` and `\` escaped by a backslash.  (Python additionally escapes
control and non-ASCII characters; those escapes round-trip identically, so the
quote-and-backslash escapes suffice for a faithful model of the claims.)
`json.loads` on text that is not such an encoding is modelled as `none`,
standing for the exception (or non-string-list value) it would produce. -/

/-- Escape every quote and backslash with a preceding backslash. -/
def escChars : List Char → List Char
  | [] => []
  | c :: cs =>
    if c = '"' ∨ c = '\\' then '\\' :: c :: escChars cs else c :: escChars cs

/-- One JSON string literal, as characters. -/
def encStrChars (s : List Char) : List Char :=
  '"' :: (escChars s ++ ['"'])

/-- The comma-separated item list of a JSON array of strings. -/
def encElemsChars : List (List Char) → List Char
  | [] => []
  | [s] => encStrChars s
  | s :: t :: rest => encStrChars s ++ (',' :: ' ' :: encElemsChars (t :: rest))

/-- `json.dumps` on a list of strings. -/
def encodeList (l : List String) : String :=
  String.mk ('[' :: (encElemsChars (l.map String.data) ++ [']']))

/-- Inverse of `escChars`: read characters up to the closing quote, returning
the decoded content and the remainder after the quote. -/
def unesc : List Char → Option (List Char × List Char)
  | [] => none
  | c :: cs =>
    if c = '"' then some ([], cs)
    else if c = '\\' then
      match cs with
      | [] => none
      | d :: ds =>
        match unesc ds with
        | none => none
        | some (a, r) => some (d :: a, r)
    else
      match unesc cs with
      | none => none
      | some (a, r) => some (c :: a, r)

/-- Parse the item list of a JSON array of strings, up to and including the
closing bracket.  `fuel` bounds the number of items and is consumed once per
item. -/
def parseElems : Nat → List Char → Option (List String)
  | 0, _ => none
  | fuel + 1, cs =>
    match cs with
    | '"' :: rest =>
      match unesc rest with
      | none => none
      | some (content, after) =>
        match after with
        | [']'] => some [String.mk content]
        | ',' :: ' ' :: more =>
          match parseElems fuel more with
          | none => none
          | some tail => some (String.mk content :: tail)
        | _ => none
    | _ => none

/-- `json.loads` restricted to encodings of lists of strings; anything else is
`none` (an exception, or a JSON value of a different shape). -/
def decodeList (s : String) : Option (List String) :=
  match s.data with
  | '[' :: rest =>
    if rest = [']'] then some []
    else parseElems rest.length rest
  | _ => none

/- ### The Employee model (`src/lambda-app/app/models.py`) -/

/-- Row of the `employees` table (`class Employee`).  Only `id` is a primary
key and only the three name/location/title columns are `nullable=False`; at
the Python object level any column can still hold `None` before a flush, and
`Employee.from_dict` does construct such objects, so every field is an
`Option` except where the JSON text is concerned (`badges` is a nullable
`Text` column). -/
structure EmployeeRec where
  id : Option String
  fullname : Option String
  location : Option String
  job_title : Option String
  badges : Option String
deriving DecidableEq

/-- The dictionary produced by `Employee.to_dict`. -/
structure EmployeeDict where
  id : Option String
  fullname : Option String
  location : Option String
  job_title : Option String
  badges : List String
deriving DecidableEq

/-- `json.loads(self.badges) if self.badges else []`: `None` and the empty
string are falsy and give `[]`; otherwise the column text is decoded, `none`
standing for a `json.loads` failure. -/
def loadBadges : Option String → Option (List String)
  | none => some []
  | some s => if s = "" then some [] else decodeList s

/-- `Employee.to_dict` (models.py lines 25-33); `none` models the call raising
because the stored badge text does not decode. -/
def EmployeeRec.to_dict (e : EmployeeRec) : Option EmployeeDict :=
  match loadBadges e.badges with
  | none => none
  | some bs => some ⟨e.id, e.fullname, e.location, e.job_title, bs⟩

/-- `Employee.__init__` (models.py lines 19-23): a fresh prefixed id is
generated only when the `id` keyword is absent from `kwargs` altogether.
`idKw = none` models an absent keyword; `idKw = some v` models a present
keyword whose value is `v` — possibly `None`. -/
def employeeInit (idKw : Option (Option String)) (fresh : String)
    (fullname location job_title : Option String) (badges : Option String) : EmployeeRec :=
  { id := match idKw with
      | none => some ("emp-" ++ fresh)
      | some v => v
    fullname := fullname
    location := location
    job_title := job_title
    badges := badges }

/-- A dictionary argument to `Employee.from_dict`: each field is `none` when
the key is absent (`data.get` then returns `None`). -/
structure FromDictData where
  id : Option String
  fullname : Option String
  location : Option String
  job_title : Option String
  badges : Option (List String)
deriving DecidableEq

/-- `Employee.from_dict` (models.py lines 35-44): every keyword — including
`id` — is passed explicitly (`id=data.get('id')`), and `badges` is
`json.dumps(data.get('badges', []))`. -/
def EmployeeRec.from_dict (data : FromDictData) (fresh : String) : EmployeeRec :=
  employeeInit (some data.id) fresh data.fullname data.location data.job_title
    (some (encodeList (data.badges.getD [])))

/- ### Store helper functions (models.py lines 50-112)

Each helper wraps its body in `try/except`.  The two failure sources a claim
touches are modelled explicitly: `dbFail` says the underlying query raised,
and `commitFails` says `db.session.commit()` raised; `db.session.rollback()`
restores the pre-call store. -/

/-- The body of `get_employees` before the exception handler:
`[emp.to_dict() for emp in Employee.query.all()]`, raising if the query fails
or some `to_dict` fails. -/
def employeesQuery (st : List EmployeeRec) (dbFail : Bool) :
    Except String (List EmployeeDict) :=
  if dbFail then .error "db error"
  else
    match st.mapM EmployeeRec.to_dict with
    | some l => .ok l
    | none => .error "json error"

/-- `get_employees`: any exception is caught and the empty list returned. -/
def get_employees (st : List EmployeeRec) (dbFail : Bool) : List EmployeeDict :=
  match employeesQuery st dbFail with
  | .ok l => l
  | .error _ => []

/-- `get_employees` as seen by its callers: it never raises, so the
exceptional channel is uninhabited. -/
def get_employeesE (st : List EmployeeRec) (dbFail : Bool) :
    Except String (List EmployeeDict) :=
  .ok (get_employees st dbFail)

/-- `get_employee`: `Employee.query.get` by primary key, `None` when absent or
on any exception (including a `to_dict` failure). -/
def get_employee (st : List EmployeeRec) (dbFail : Bool) (employee_id : String) :
    Option EmployeeDict :=
  if dbFail then none
  else
    match st.find? (fun e => e.id == some employee_id) with
    | some e =>
      match e.to_dict with
      | some d => some d
      | none => none
    | none => none

/-- `create_employee` (models.py lines 67-77): build the record with
`from_dict`, add and commit; on a commit exception, roll back and return
`None`.  A `to_dict` failure after a successful commit would also return
`None`, but the commit is already durable, hence the state keeps the row. -/
def create_employee (st : List EmployeeRec) (data : FromDictData) (fresh : String)
    (commitFails : Bool) : List EmployeeRec × Option EmployeeDict :=
  let e := EmployeeRec.from_dict data fresh
  if commitFails then (st, none)
  else (st ++ [e], e.to_dict)

/-- A dictionary argument to `update_employee`: `none` models an absent key.
Keys other than the five attribute names fail the `hasattr` test and are
skipped; `otherKeys` carries them. -/
structure UpdatePayload where
  id : Option String
  fullname : Option String
  location : Option String
  job_title : Option String
  badges : Option (List String)
  otherKeys : List String
deriving DecidableEq

/-- Net effect of the `for key, value in employee_data.items()` loop of
`update_employee` on the found record: the `id` key is skipped explicitly,
keys failing `hasattr` are skipped, `badges` is stored as `json.dumps(value)`,
and every other present attribute key overwrites its column. -/
def applyUpdate (e : EmployeeRec) (p : UpdatePayload) : EmployeeRec :=
  { id := e.id
    fullname := match p.fullname with | some v => some v | none => e.fullname
    location := match p.location with | some v => some v | none => e.location
    job_title := match p.job_title with | some v => some v | none => e.job_title
    badges := match p.badges with | some v => some (encodeList v) | none => e.badges }

/-- `update_employee` (models.py lines 79-98): `None` when the record is
absent; otherwise apply the field loop and commit, rolling back to the
pre-call store and returning `None` when the commit raises. -/
def update_employee (st : List EmployeeRec) (employee_id : String) (p : UpdatePayload)
    (commitFails : Bool) : List EmployeeRec × Option EmployeeDict :=
  match st.find? (fun e => e.id == some employee_id) with
  | none => (st, none)
  | some e =>
    if commitFails then (st, none)
    else
      ((st.map fun x => if x.id == some employee_id then applyUpdate e p else x),
        (applyUpdate e p).to_dict)

/-- `delete_employee` (models.py lines 100-112): delete and commit when the
record exists, rolling back on a commit exception; `False` when absent or on
failure. -/
def delete_employee (st : List EmployeeRec) (employee_id : String) (commitFails : Bool) :
    List EmployeeRec × Bool :=
  match st.find? (fun e => e.id == some employee_id) with
  | some _ =>
    if commitFails then (st, false)
    else ((st.filter fun e => !(e.id == some employee_id)), true)
  | none => (st, false)

/- ### Routes (`src/lambda-app/app/routes.py`) -/

/-- The `/delete/<employee_id>` route (routes.py lines 127-140).  The handler
carries no `@login_required` and performs no role or session check of any
kind: the requester's role is received here only to witness that the body
never consults it.  The commit is taken to succeed, as the claim is about the
authorization gate. -/
def lambdaDelete (_role : String) (st : List EmployeeRec) (employee_id : String) :
    List EmployeeRec × Bool :=
  delete_employee st employee_id false

/-- The JSON envelope of the API routes together with the HTTP status code. -/
structure ApiListResponse where
  success : Bool
  data : List EmployeeDict
  total : Option Nat
  error : Option String
  status : Nat
deriving DecidableEq

/-- The `/api/employees` route (routes.py lines 143-158): the happy branch
returns `{success, data, total}` with status 200; the `except` branch would
return a 500 envelope, but its scrutinee `get_employeesE` never carries an
error because `get_employees` swallows every exception. -/
def api_employees (st : List EmployeeRec) (dbFail : Bool) : ApiListResponse :=
  match get_employeesE st dbFail with
  | .ok emps => ⟨true, emps, some emps.length, none, 200⟩
  | .error msg => ⟨false, [], none, some msg, 500⟩

end EmpApp

namespace EmpApp

/- ### Round trip of the badge codec -/

theorem unesc_escChars (s : List Char) (rest : List Char) :
    unesc (escChars s ++ ('"' :: rest)) = some (s, rest) := by
  induction s with
  | nil => simp [escChars, unesc.eq_def]
  | cons c cs ih =>
    by_cases hc : c = '"' ∨ c = '\\'
    · simp only [escChars, if_pos hc, List.cons_append]
      rw [unesc.eq_def]
      simp [ih]
    · push_neg at hc
      simp only [escChars, if_neg (not_or.mpr hc), List.cons_append]
      rw [unesc.eq_def]
      simp [hc.1, hc.2, ih]

theorem parseElems_enc (l : List String) (hne : l ≠ []) :
    ∀ fuel, l.length ≤ fuel →
      parseElems fuel (encElemsChars (l.map String.data) ++ [']']) = some l := by
  induction l with
  | nil => exact absurd rfl hne
  | cons s t ih =>
    intro fuel hfuel
    cases fuel with
    | zero => simp at hfuel
    | succ fuel =>
      cases t with
      | nil =>
        have h1 : encElemsChars ([s].map String.data) ++ [']']
            = '"' :: (escChars s.data ++ ('"' :: [']'])) := by
          simp [encElemsChars, encStrChars, List.append_assoc]
        rw [h1]
        simp [parseElems, unesc_escChars]
      | cons s2 t2 =>
        have h1 : encElemsChars ((s :: s2 :: t2).map String.data) ++ [']']
            = '"' :: (escChars s.data ++
                ('"' :: (',' :: ' ' :: (encElemsChars ((s2 :: t2).map String.data) ++ [']'])))) := by
          simp [encElemsChars, encStrChars, List.append_assoc]
        rw [h1]
        have h2 := ih (by simp) fuel (by simp only [List.length_cons] at hfuel ⊢; omega)
        simp only [List.map_cons] at h2
        simp [parseElems, unesc_escChars, h2]

theorem le_length_encElemsChars (l : List (List Char)) :
    l.length ≤ (encElemsChars l).length := by
  induction l with
  | nil => simp [encElemsChars]
  | cons s t ih =>
    cases t with
    | nil => simp [encElemsChars, encStrChars]
    | cons s2 t2 =>
      simp only [encElemsChars, encStrChars] at *
      simp only [List.length_cons, List.length_append] at *
      omega

theorem decodeList_encodeList (l : List String) : decodeList (encodeList l) = some l := by
  cases l with
  | nil => rfl
  | cons s t =>
    rw [show decodeList (encodeList (s :: t))
        = (if (encElemsChars ((s :: t).map String.data) ++ [']']) = [']'] then some []
           else parseElems (encElemsChars ((s :: t).map String.data) ++ [']']).length
             (encElemsChars ((s :: t).map String.data) ++ [']'])) from rfl]
    have hlen := le_length_encElemsChars ((s :: t).map String.data)
    simp only [List.length_map, List.length_cons] at hlen
    have hcond : ¬(encElemsChars ((s :: t).map String.data) ++ [']'] = [']']) := by
      intro h
      have := congrArg List.length h
      simp only [List.length_append, List.length_cons, List.length_nil] at this
      omega
    rw [if_neg hcond]
    exact parseElems_enc (s :: t) (by simp) _
      (by simp only [List.length_append, List.length_cons, List.length_nil]; omega)

theorem encodeList_ne_empty (l : List String) : encodeList l ≠ "" := by
  intro h
  have := congrArg String.data h
  simp [encodeList] at this

theorem loadBadges_encodeList (l : List String) :
    loadBadges (some (encodeList l)) = some l := by
  simp only [loadBadges, if_neg (encodeList_ne_empty l)]
  exact decodeList_encodeList l

theorem to_dict_from_dict (d : FromDictData) (fresh : String) :
    (EmployeeRec.from_dict d fresh).to_dict
      = some ⟨d.id, d.fullname, d.location, d.job_title, d.badges.getD []⟩ := by
  simp [EmployeeRec.from_dict, EmployeeRec.to_dict, employeeInit, loadBadges_encodeList]

end EmpApp

open DogApp EmpApp

/- ### Concrete records used by witnesses and counterexamples -/

/-- A stored employee (the seeded `emp-001` of `init_sample_data`). -/
def empC1 : EmployeeRec :=
  ⟨some "emp-001", some "John Doe", some "Seattle, WA", some "Software Engineer", some "[]"⟩

/-- A `from_dict` argument without an `id` key. -/
def c10data : FromDictData :=
  ⟨none, some "John Doe", some "Seattle, WA", some "Software Engineer", some ["apple", "coffee"]⟩

/-- A stored employee for the update-frame witness. -/
def empC7 : EmployeeRec :=
  ⟨some "emp-001", some "John Doe", some "Austin, TX", some "Product Manager", some "[]"⟩

/-- An update payload that tries to change the id, overwrites two attribute
keys, and carries an unknown key. -/
def payC7 : UpdatePayload :=
  ⟨some "emp-999", some "Jane Smith", none, none, some ["linux", "bug"], ["unknown_key"]⟩

/- ### C7 — update_employee frame conditions -/

/-- C7: for every existing employee and every update payload, `update_employee`
leaves the record's id unchanged even when the payload contains an `id` key,
overwrites exactly the payload keys that are attributes of the record (badges
being stored as their JSON text), leaves all fields not present in the payload
unchanged, and ignores keys that are not attributes. -/
theorem spec_c7_update_frame :
    ∀ (st : List EmployeeRec) (employee_id : String) (p : UpdatePayload) (e : EmployeeRec),
    st.find? (fun x => x.id == some employee_id) = some e →
    update_employee st employee_id p false =
      ((st.map fun x => if x.id == some employee_id then applyUpdate e p else x),
        (applyUpdate e p).to_dict) ∧
    (applyUpdate e p).id = e.id ∧
    (p.fullname = none → (applyUpdate e p).fullname = e.fullname) ∧
    (∀ v, p.fullname = some v → (applyUpdate e p).fullname = some v) ∧
    (p.location = none → (applyUpdate e p).location = e.location) ∧
    (∀ v, p.location = some v → (applyUpdate e p).location = some v) ∧
    (p.job_title = none → (applyUpdate e p).job_title = e.job_title) ∧
    (∀ v, p.job_title = some v → (applyUpdate e p).job_title = some v) ∧
    (p.badges = none → (applyUpdate e p).badges = e.badges) ∧
    (∀ v, p.badges = some v → (applyUpdate e p).badges = some (encodeList v)) ∧
    (∀ ks, update_employee st employee_id { p with otherKeys := ks } false
        = update_employee st employee_id p false) := by
  intro st employee_id p e h
  refine ⟨?_, rfl, ?_, ?_, ?_, ?_, ?_, ?_, ?_, ?_, fun ks => rfl⟩
  · simp [update_employee, h]
  all_goals intro hv
  all_goals try intro hv2
  all_goals simp_all [applyUpdate]

/-- Witness for C7 at a concrete store and payload. -/
theorem spec_c7_update_frame_witness :
    update_employee [empC7] "emp-001" payC7 false =
      (([empC7].map fun x => if x.id == some "emp-001" then applyUpdate empC7 payC7 else x),
        (applyUpdate empC7 payC7).to_dict) ∧
    (applyUpdate empC7 payC7).id = empC7.id :=
  ⟨(spec_c7_update_frame [empC7] "emp-001" payC7 empC7 (by decide)).1,
   (spec_c7_update_frame [empC7] "emp-001" payC7 empC7 (by decide)).2.1⟩

/- ### C8 — rollback on commit failure -/

/-- C8: for every create or update in which the database commit raises, the
explicit rollback leaves the stored state unchanged and the operation returns
`None`; the single `commit` call in each function body makes a retry
impossible. -/
theorem spec_c8_commit_rollback :
    ∀ (st : List EmployeeRec) (data : FromDictData) (fresh employee_id : String)
      (p : UpdatePayload),
    create_employee st data fresh true = (st, none) ∧
    update_employee st employee_id p true = (st, none) := by
  intro st data fresh employee_id p
  constructor
  · rfl
  · cases h : st.find? (fun e => e.id == some employee_id) <;>
      simp [update_employee, h]

/- ### C9 — store failures are invisible at the API -/

/-- C9: a database failure during lookup is indistinguishable from absence:
`get_employees` returns `[]` and `get_employee` returns `None` on any
exception, so `/api/employees` answers `success, [], total 0` with HTTP 200
even when the store errors, and its 500 branch is unreachable through store
failures (the response is always the 200 envelope). -/
theorem spec_c9_failure_invisible :
    ∀ (st st2 : List EmployeeRec) (employee_id : String) (dbFail : Bool),
    get_employees st true = [] ∧
    get_employee st true employee_id = none ∧
    api_employees st true = ⟨true, [], some 0, none, 200⟩ ∧
    (api_employees st2 dbFail).status = 200 ∧
    (api_employees st2 dbFail).success = true ∧
    (api_employees st2 dbFail).error = none := by
  intro st st2 employee_id dbFail
  refine ⟨rfl, rfl, rfl, ?_, ?_, ?_⟩ <;>
    simp [api_employees, get_employeesE]

/- ### C10 — from_dict / to_dict round trip -/

/-- C10 (counterexample): when the dictionary lacks an `id`, `from_dict` still
passes `id=None` explicitly, so `Employee.__init__` sees an `id` keyword and
does not generate one: the constructed record's id is `None`, not the fresh
prefixed id the claim promises. -/
theorem spec_c10_counterexample :
    (EmployeeRec.from_dict c10data "12345678").id = none ∧
    (EmployeeRec.from_dict c10data "12345678").id ≠ some ("emp-" ++ "12345678") := by
  decide

/-- C10 (amended): round-tripping `from_dict` then `to_dict` preserves
fullname, location, job title and the badge list (through the JSON text
encoding, the empty list included) and preserves a supplied id; a missing id
key yields `None` — the constructor generates a fresh id only when called
without an `id` keyword altogether. -/
theorem spec_c10_roundtrip :
    ∀ (d : FromDictData) (fresh : String)
      (fullname location job_title : Option String) (badges : Option String),
    (EmployeeRec.from_dict d fresh).to_dict
      = some ⟨d.id, d.fullname, d.location, d.job_title, d.badges.getD []⟩ ∧
    (employeeInit none fresh fullname location job_title badges).id
      = some ("emp-" ++ fresh) ∧
    (employeeInit (some d.id) fresh fullname location job_title badges).id = d.id :=
  fun d fresh _fullname _location _job_title _badges =>
    ⟨to_dict_from_dict d fresh, rfl, rfl⟩

/- ### Helper lemmas about the dog-variant store -/

theorem length_insertEventDesc (e : EventRec) (l : List EventRec) :
    (insertEventDesc e l).length = l.length + 1 := by
  induction l with
  | nil => rfl
  | cons x xs ih =>
    simp only [insertEventDesc]
    split <;> simp [ih]

theorem length_sortEventsDesc (l : List EventRec) :
    (sortEventsDesc l).length = l.length := by
  induction l with
  | nil => rfl
  | cons e es ih => simp [sortEventsDesc, length_insertEventDesc, ih]

/- ### C1 — role gating of delete and register -/

/-- A concrete dog-variant store with one dog and one of its events. -/
def stC1w : DogState :=
  ⟨[], [⟨"dog-001", "Max", "3 years", "medium", "Golden Retriever"⟩],
    [⟨"evt-001", "dog-001", "walk", 0, none, none, none, none⟩]⟩

/-- C1 (counterexample): the Employee Directory's `/delete/<employee_id>`
route has no role (nor any authentication) check: a delete request whose
requester's role is "employee" succeeds and removes the stored record, so the
state is not unchanged. -/
theorem spec_c1_counterexample :
    ("employee" : String) ≠ "admin" ∧
    (lambdaDelete "employee" [empC1] "emp-001").fst ≠ [empC1] ∧
    (lambdaDelete "employee" [empC1] "emp-001").snd = true := by
  decide

/-- C1 (amended): in the Dog Events Tracker, every delete-dog, delete-event or
register request by an authenticated non-admin is denied with the store left
unchanged; in the Employee Directory, the delete route consults no role and
deletes the addressed employee whenever it exists, whatever the requester's
role. -/
theorem spec_c1_role_gate :
    ∀ role : String, role ≠ "admin" →
    (∀ (st : DogState) (dogId : String),
        deleteDogRoute role st dogId = (st, DeleteResult.denied)) ∧
    (∀ (st : DogState) (eventId : String),
        deleteEventRoute role st eventId = (st, DeleteResult.denied)) ∧
    (∀ (st : DogState) (f : UserFormData) (fresh : String),
        registerRoute role st f fresh = (st, RegisterResult.denied)) ∧
    (∀ (est : List EmployeeRec) (employee_id : String) (e : EmployeeRec),
        est.find? (fun x => x.id == some employee_id) = some e →
        (lambdaDelete role est employee_id).snd = true ∧
        (lambdaDelete role est employee_id).fst
          = est.filter (fun x => !(x.id == some employee_id))) := by
  intro role h
  have hb : (role != "admin") = true := by simpa [bne_iff_ne] using h
  refine ⟨fun st dogId => ?_, fun st eventId => ?_, fun st f fresh => ?_,
    fun est employee_id e hf => ?_⟩
  · simp [deleteDogRoute, hb]
  · simp [deleteEventRoute, hb]
  · simp [registerRoute, hb]
  · constructor <;> simp [lambdaDelete, delete_employee, hf]

/-- Witness for C1 at concrete stores and the role "manager". -/
theorem spec_c1_role_gate_witness :
    deleteDogRoute "manager" stC1w "dog-001" = (stC1w, DeleteResult.denied) ∧
    deleteEventRoute "manager" stC1w "evt-001" = (stC1w, DeleteResult.denied) ∧
    (lambdaDelete "manager" [empC1] "emp-001").snd = true :=
  ⟨(spec_c1_role_gate "manager" (by decide)).1 stC1w "dog-001",
   (spec_c1_role_gate "manager" (by decide)).2.1 stC1w "evt-001",
   ((spec_c1_role_gate "manager" (by decide)).2.2.2 [empC1] "emp-001" empC1 (by decide)).1⟩

/- ### C2 — cascade delete and referential integrity -/

/-- Unfolding of the referential-integrity check into membership form. -/
theorem refIntegrityB_iff (st : DogState) :
    refIntegrityB st = true ↔ ∀ ev ∈ st.events, ∃ d ∈ st.dogs, d.id = ev.dog_id := by
  simp [refIntegrityB, List.all_eq_true, List.any_eq_true, beq_iff_eq]

/-- The updated dog of `editDogRoute` keeps its id. -/
theorem editDog_keeps_id (dogId : String) (f : DogFormData) (d : DogRec) :
    (if d.id == dogId then
        { d with name := f.name, approx_age := f.approx_age,
                 size := f.size, breed_type := f.breed_type }
      else d).id = d.id := by
  split <;> rfl

/-- The register route writes only the `users` table. -/
theorem registerRoute_frame (role : String) (st : DogState) (f : UserFormData)
    (fresh : String) :
    (registerRoute role st f fresh).fst.dogs = st.dogs ∧
    (registerRoute role st f fresh).fst.events = st.events := by
  simp only [registerRoute]
  split_ifs <;> simp

/-- A concrete store with two dogs and one event under each. -/
def stC2w : DogState :=
  ⟨[],
   [⟨"dog-001", "Max", "3 years", "medium", "Golden Retriever"⟩,
    ⟨"dog-002", "Bella", "1 year", "small", "Chihuahua"⟩],
   [⟨"evt-001", "dog-001", "walk", 0, none, none, none, none⟩,
    ⟨"evt-002", "dog-002", "nap", 5, none, none, none, none⟩]⟩

/-- C2: after a successful delete of a dog, no event whose `dog_id` equals the
deleted dog's id remains in the store, and every operation of the dog variant
preserves the invariant that each stored event's `dog_id` references a stored
dog. -/
theorem spec_c2_cascade_integrity :
    (∀ (role : String) (st : DogState) (dogId : String),
        (deleteDogRoute role st dogId).snd = DeleteResult.deleted →
        (deleteDogRoute role st dogId).fst.events.all
          (fun ev => !(ev.dog_id == dogId)) = true) ∧
    (∀ (op : DogOp) (st : DogState),
        refIntegrityB st = true → refIntegrityB (runOp op st) = true) := by
  constructor
  · intro role st dogId h
    by_cases hr : (role != "admin") = true
    · simp [deleteDogRoute, hr] at h
    · replace hr : (role != "admin") = false := by
        cases hq : (role != "admin") with
        | false => rfl
        | true => exact absurd hq hr
      cases hf : st.dogs.find? (fun d => d.id == dogId) with
      | none => simp [deleteDogRoute, hr, hf] at h
      | some d =>
        simp only [deleteDogRoute, hr, Bool.false_eq_true, if_false, hf]
        simp [List.all_eq_true, List.mem_filter]
  · intro op st hinv
    rw [refIntegrityB_iff] at hinv ⊢
    cases op with
    | addDog f fresh =>
      by_cases hv : validateDogForm f = true
      · have hst : runOp (DogOp.addDog f fresh) st
            = { st with dogs := st.dogs ++
                [⟨"dog-" ++ fresh, f.name, f.approx_age, f.size, f.breed_type⟩] } := by
          simp [runOp, addDogRoute, hv]
        rw [hst]
        intro ev hev
        obtain ⟨d, hd, hid⟩ := hinv ev hev
        exact ⟨d, List.mem_append_left _ hd, hid⟩
      · have hst : runOp (DogOp.addDog f fresh) st = st := by
          simp [runOp, addDogRoute, hv]
        rw [hst]; exact hinv
    | editDog dogId f =>
      cases hf : st.dogs.find? (fun d => d.id == dogId) with
      | none =>
        have hst : runOp (DogOp.editDog dogId f) st = st := by
          simp [runOp, editDogRoute, hf]
        rw [hst]; exact hinv
      | some d0 =>
        by_cases hv : validateDogForm f = true
        · have hst : runOp (DogOp.editDog dogId f) st
              = { st with dogs := st.dogs.map (fun d =>
                  if d.id == dogId then
                    { d with name := f.name, approx_age := f.approx_age,
                             size := f.size, breed_type := f.breed_type }
                  else d) } := by
            simp [runOp, editDogRoute, hf, hv]
          rw [hst]
          intro ev hev
          obtain ⟨d, hd, hid⟩ := hinv ev hev
          refine ⟨_, List.mem_map_of_mem _ hd, ?_⟩
          simp only [editDog_keeps_id]
          exact hid
        · have hst : runOp (DogOp.editDog dogId f) st = st := by
            simp [runOp, editDogRoute, hf, hv]
          rw [hst]; exact hinv
    | deleteDog role dogId =>
      by_cases hr : (role != "admin") = true
      · have hst : runOp (DogOp.deleteDog role dogId) st = st := by
          simp [runOp, deleteDogRoute, hr]
        rw [hst]; exact hinv
      · cases hf : st.dogs.find? (fun d => d.id == dogId) with
        | none =>
          have hst : runOp (DogOp.deleteDog role dogId) st = st := by
            simp [runOp, deleteDogRoute, hr, hf]
          rw [hst]; exact hinv
        | some d0 =>
          have hst : runOp (DogOp.deleteDog role dogId) st
              = { st with dogs := st.dogs.filter (fun d => !(d.id == dogId)),
                          events := st.events.filter (fun e => !(e.dog_id == dogId)) } := by
            simp [runOp, deleteDogRoute, hr, hf]
          rw [hst]
          intro ev hev
          have hev' : ev ∈ st.events.filter (fun e => !(e.dog_id == dogId)) := hev
          obtain ⟨hev1, hev2⟩ := List.mem_filter.mp hev'
          obtain ⟨d, hd, hid⟩ := hinv ev hev1
          refine ⟨d, ?_, hid⟩
          show d ∈ st.dogs.filter (fun d => !(d.id == dogId))
          exact List.mem_filter.mpr ⟨hd, by simpa [hid] using hev2⟩
    | addEvent f fresh =>
      by_cases hv : validateEventForm st.dogs f = true
      · have hst : runOp (DogOp.addEvent f fresh) st
            = { st with events := st.events ++ [mkEvent fresh f] } := by
          simp [runOp, addEventRoute, hv]
        rw [hst]
        intro ev hev
        have hev' : ev ∈ st.events ++ [mkEvent fresh f] := hev
        rcases List.mem_append.mp hev' with h1 | h1
        · obtain ⟨d, hd, hid⟩ := hinv ev h1
          exact ⟨d, hd, hid⟩
        · rw [List.mem_singleton] at h1
          subst h1
          have hany : st.dogs.any (fun d => d.id == f.dog_id) = true := by
            simp only [validateEventForm, Bool.and_eq_true] at hv
            exact hv.1.1.1.1
          rw [List.any_eq_true] at hany
          obtain ⟨d, hd, hid⟩ := hany
          exact ⟨d, hd, beq_iff_eq.mp hid⟩
      · have hst : runOp (DogOp.addEvent f fresh) st = st := by
          simp [runOp, addEventRoute, hv]
        rw [hst]; exact hinv
    | editEvent eventId f =>
      cases hf : st.events.find? (fun e => e.id == eventId) with
      | none =>
        have hst : runOp (DogOp.editEvent eventId f) st = st := by
          simp [runOp, editEventRoute, hf]
        rw [hst]; exact hinv
      | some e0 =>
        by_cases hv : validateEventForm st.dogs f = true
        · have hst : runOp (DogOp.editEvent eventId f) st
              = { st with events := st.events.map (fun e =>
                  if e.id == eventId then
                    { e with dog_id := f.dog_id, event_type := f.event_type,
                             timestamp := f.timestamp, end_timestamp := f.end_timestamp,
                             location := if f.location == "" then none else some f.location,
                             notes := if f.notes == "" then none else some f.notes,
                             bristol_stool_scale := persistBristol f.bristol_stool_scale }
                  else e) } := by
            simp [runOp, editEventRoute, hf, hv]
          rw [hst]
          intro ev hev
          have hev' : ev ∈ st.events.map (fun e =>
              if e.id == eventId then
                { e with dog_id := f.dog_id, event_type := f.event_type,
                         timestamp := f.timestamp, end_timestamp := f.end_timestamp,
                         location := if f.location == "" then none else some f.location,
                         notes := if f.notes == "" then none else some f.notes,
                         bristol_stool_scale := persistBristol f.bristol_stool_scale }
              else e) := hev
          obtain ⟨e1, he1, heq⟩ := List.mem_map.mp hev'
          subst heq
          by_cases he : (e1.id == eventId) = true
          · have hdid : ((fun e =>
                if e.id == eventId then
                  { e with dog_id := f.dog_id, event_type := f.event_type,
                           timestamp := f.timestamp, end_timestamp := f.end_timestamp,
                           location := if f.location == "" then none else some f.location,
                           notes := if f.notes == "" then none else some f.notes,
                           bristol_stool_scale := persistBristol f.bristol_stool_scale }
                else e) e1).dog_id = f.dog_id := by
              simp [he]
            rw [hdid]
            have hany : st.dogs.any (fun d => d.id == f.dog_id) = true := by
              simp only [validateEventForm, Bool.and_eq_true] at hv
              exact hv.1.1.1.1
            rw [List.any_eq_true] at hany
            obtain ⟨d, hd, hid⟩ := hany
            exact ⟨d, hd, beq_iff_eq.mp hid⟩
          · have hdid : ((fun e =>
                if e.id == eventId then
                  { e with dog_id := f.dog_id, event_type := f.event_type,
                           timestamp := f.timestamp, end_timestamp := f.end_timestamp,
                           location := if f.location == "" then none else some f.location,
                           notes := if f.notes == "" then none else some f.notes,
                           bristol_stool_scale := persistBristol f.bristol_stool_scale }
                else e) e1).dog_id = e1.dog_id := by
              simp [he]
            rw [hdid]
            exact hinv e1 he1
        · have hst : runOp (DogOp.editEvent eventId f) st = st := by
            simp [runOp, editEventRoute, hf, hv]
          rw [hst]; exact hinv
    | deleteEvent role eventId =>
      by_cases hr : (role != "admin") = true
      · have hst : runOp (DogOp.deleteEvent role eventId) st = st := by
          simp [runOp, deleteEventRoute, hr]
        rw [hst]; exact hinv
      · cases hf : st.events.find? (fun e => e.id == eventId) with
        | none =>
          have hst : runOp (DogOp.deleteEvent role eventId) st = st := by
            simp [runOp, deleteEventRoute, hr, hf]
          rw [hst]; exact hinv
        | some e0 =>
          have hst : runOp (DogOp.deleteEvent role eventId) st
              = { st with events := st.events.filter (fun e => !(e.id == eventId)) } := by
            simp [runOp, deleteEventRoute, hr, hf]
          rw [hst]
          intro ev hev
          have hev' : ev ∈ st.events.filter (fun e => !(e.id == eventId)) := hev
          exact hinv ev (List.mem_filter.mp hev').1
    | registerUser role f fresh =>
      obtain ⟨h1, h2⟩ := registerRoute_frame role st f fresh
      intro ev hev
      have hev2 : ev ∈ (registerRoute role st f fresh).fst.events := hev
      rw [h2] at hev2
      obtain ⟨d, hd, hid⟩ := hinv ev hev2
      refine ⟨d, ?_, hid⟩
      show d ∈ (registerRoute role st f fresh).fst.dogs
      rw [h1]; exact hd

/-- Witness for C2: an admin delete of `dog-001` against a concrete store with
events under two dogs. -/
theorem spec_c2_cascade_integrity_witness :
    (deleteDogRoute "admin" stC2w "dog-001").snd = DeleteResult.deleted ∧
    (deleteDogRoute "admin" stC2w "dog-001").fst.events.all
      (fun ev => !(ev.dog_id == "dog-001")) = true ∧
    refIntegrityB (runOp (DogOp.deleteDog "admin" "dog-001") stC2w) = true :=
  ⟨by decide,
   spec_c2_cascade_integrity.1 "admin" stC2w "dog-001" (by decide),
   spec_c2_cascade_integrity.2 (DogOp.deleteDog "admin" "dog-001") stC2w (by decide)⟩

/- ### C3 — event duration -/

/-- A concrete event with both timestamps (a 30 minute walk). -/
def evC3 : EventRec :=
  ⟨"evt-001", "dog-001", "walk", 0, some 1800, some "Neighborhood Park", none, none⟩

/-- C3: the serialized event's `duration` equals `(end_timestamp - timestamp)`
expressed in minutes (seconds divided by 60) when both timestamps are present
(`timestamp` always is, being non-nullable), and is `None` when
`end_timestamp` is absent. -/
theorem spec_c3_duration :
    ∀ e : EventRec,
    (∀ et : Int, e.end_timestamp = some et →
      (EventRec.to_dict e).duration = some (((et - e.timestamp : Int) : Rat) / 60)) ∧
    (e.end_timestamp = none → (EventRec.to_dict e).duration = none) := by
  intro e
  constructor
  · intro et h
    simp [EventRec.to_dict, h]
  · intro h
    simp [EventRec.to_dict, h]

/-- Witness for C3 at a concrete event. -/
theorem spec_c3_duration_witness :
    (EventRec.to_dict evC3).duration = some (((1800 - evC3.timestamp : Int) : Rat) / 60) :=
  (spec_c3_duration evC3).1 1800 rfl

/- ### C4 — Bristol scale validation and persistence -/

/-- A store for the C4 witness. -/
def stC4w : DogState :=
  ⟨[], [⟨"dog-001", "Max", "3 years", "medium", "Golden Retriever"⟩], []⟩

/-- An event form carrying a Bristol value outside the choice list. -/
def fC4bad : EventFormData :=
  ⟨"dog-001", "poop", 0, none, "Backyard", "", "9"⟩

/-- An event form with the empty ("Not applicable") Bristol value. -/
def fC4empty : EventFormData :=
  ⟨"dog-001", "poop", 0, none, "Backyard", "", ""⟩

/-- A Bristol value passing the choice-list check persists as absent or as an
integer between 1 and 7. -/
theorem persistBristol_of_valid (s : String) (h : validateBristol s = true) :
    persistBristol s = none ∨ ∃ n, persistBristol s = some n ∧ 1 ≤ n ∧ n ≤ 7 := by
  simp only [validateBristol, Bool.or_eq_true, beq_iff_eq] at h
  rcases h with (((((((h | h) | h) | h) | h) | h) | h) | h) <;> subst h
  · exact Or.inl (by decide)
  · exact Or.inr ⟨1, by decide⟩
  · exact Or.inr ⟨2, by decide⟩
  · exact Or.inr ⟨3, by decide⟩
  · exact Or.inr ⟨4, by decide⟩
  · exact Or.inr ⟨5, by decide⟩
  · exact Or.inr ⟨6, by decide⟩
  · exact Or.inr ⟨7, by decide⟩

/-- C4: the persisted `bristol_stool_scale` is an integer in 1-7 or absent:
the empty string is stored as absent, and a submission whose Bristol value is
neither empty nor one of "1"-"7" fails validation and persists nothing. -/
theorem spec_c4_bristol :
    ∀ (st : DogState) (f : EventFormData) (fresh : String),
    (validateBristol f.bristol_stool_scale = false → addEventRoute st f fresh = (st, false)) ∧
    (f.bristol_stool_scale = "" → persistBristol f.bristol_stool_scale = none) ∧
    (∀ ev, ev ∈ (addEventRoute st f fresh).fst.events →
      ev ∈ st.events ∨ ev.bristol_stool_scale = none ∨
        ∃ n, ev.bristol_stool_scale = some n ∧ 1 ≤ n ∧ n ≤ 7) := by
  intro st f fresh
  refine ⟨?_, ?_, ?_⟩
  · intro hb
    have hv : validateEventForm st.dogs f = false := by
      simp [validateEventForm, hb]
    simp [addEventRoute, hv]
  · intro hb
    rw [hb]
    decide
  · intro ev hmem
    by_cases hv : validateEventForm st.dogs f = true
    · have hmem' : ev ∈ st.events ++ [mkEvent fresh f] := by
        simpa [addEventRoute, hv] using hmem
      rcases List.mem_append.mp hmem' with h1 | h1
      · exact Or.inl h1
      · rw [List.mem_singleton] at h1
        subst h1
        right
        have hb : validateBristol f.bristol_stool_scale = true := by
          simp only [validateEventForm, Bool.and_eq_true] at hv
          exact hv.2
        have hp := persistBristol_of_valid _ hb
        simpa [mkEvent] using hp
    · have hv' : validateEventForm st.dogs f = false := by
        cases hq : validateEventForm st.dogs f with
        | false => rfl
        | true => exact absurd hq hv
      have hmem' : ev ∈ st.events := by
        simpa [addEventRoute, hv'] using hmem
      exact Or.inl hmem'

/-- Witness for C4: the Bristol value "9" is rejected with no state change,
and the empty value persists as absent. -/
theorem spec_c4_bristol_witness :
    validateBristol "9" = false ∧
    addEventRoute stC4w fC4bad "deadbeef" = (stC4w, false) ∧
    persistBristol fC4empty.bristol_stool_scale = none :=
  ⟨by decide,
   (spec_c4_bristol stC4w fC4bad "deadbeef").1 (by decide),
   (spec_c4_bristol stC4w fC4empty "deadbeef").2.1 rfl⟩

/- ### C5 — the API mirror of the view page -/

/-- A store whose single dog has 51 events — one more than the page's
`limit(50)`. -/
def stC5 : DogState :=
  ⟨[], [⟨"dog-001", "Max", "3 years", "medium", "Golden Retriever"⟩],
   (List.range 51).map (fun i =>
     ⟨"evt-" ++ toString i, "dog-001", "walk", (i : Int), none, none, none, none⟩)⟩

/-- A store whose single dog has one event. -/
def stC5w : DogState :=
  ⟨[], [⟨"dog-001", "Max", "3 years", "medium", "Golden Retriever"⟩],
   [⟨"evt-001", "dog-001", "walk", 0, none, none, none, none⟩]⟩

/-- C5 (counterexample): with 51 stored events for a dog, the view page renders
only the 50 most recent while the API returns all 51, so the two do not return
the same data; the two routes also carry different rate-limit decorators. -/
theorem spec_c5_counterexample :
    viewDogEvents stC5 "dog-001" ≠ apiDogEventsData stC5 "dog-001" ∧
    viewGuard.rateLimit ≠ apiDogEventsGuard.rateLimit := by
  constructor
  · intro h
    exact absurd (congrArg List.length h) (by decide)
  · decide

/-- C5 (amended): whenever a dog has at most 50 stored events, the JSON API
endpoint returns exactly the event data the view page renders (the page
truncates to the 50 most recent otherwise); both routes require login, but the
API route carries its own `API_RATE_LIMIT` decorator while the view page has
none and falls back to the default limits. -/
theorem spec_c5_api_mirror :
    ∀ (st : DogState) (dogId : String),
    ((st.events.filter (fun e => e.dog_id == dogId)).length ≤ 50 →
      viewDogEvents st dogId = apiDogEventsData st dogId) ∧
    viewGuard.requiresLogin = true ∧
    apiDogEventsGuard.requiresLogin = true ∧
    viewGuard.rateLimit = none ∧
    apiDogEventsGuard.rateLimit = some "API_RATE_LIMIT" := by
  intro st dogId
  refine ⟨?_, rfl, rfl, rfl, rfl⟩
  intro h
  unfold viewDogEvents apiDogEventsData
  rw [List.take_of_length_le]
  rw [length_sortEventsDesc]
  exact h

/-- Witness for C5 at a store with a single event. -/
theorem spec_c5_api_mirror_witness :
    viewDogEvents stC5w "dog-001" = apiDogEventsData stC5w "dog-001" :=
  (spec_c5_api_mirror stC5w "dog-001").1 (by decide)

/- ### C6 — post-login redirect target -/

/-- C6 (counterexample): the login check accepts any value starting with `/`,
including the protocol-relative URL `//evil.example.com`, which is not a
same-origin relative path and is not the home page: `next` can redirect to a
different origin. -/
theorem spec_c6_counterexample :
    loginNextTarget (some "//evil.example.com") = "//evil.example.com" ∧
    specSameOriginRelativePath "//evil.example.com" = false ∧
    "//evil.example.com" ≠ homePath := by
  decide

/-- C6 (amended): the post-login redirect target is the supplied `next` value
exactly when that value starts with a slash (which admits protocol-relative
`//host` values pointing at other origins), and the home page when `next` is
missing, empty, or does not start with a slash. -/
theorem spec_c6_login_redirect :
    ∀ s : String,
    loginNextTarget none = homePath ∧
    (pyStartsWith s "/" = true → loginNextTarget (some s) = s) ∧
    (pyStartsWith s "/" = false → loginNextTarget (some s) = homePath) := by
  intro s
  refine ⟨rfl, ?_, ?_⟩
  · intro h
    have hne : ¬(s = "" ∨ pyStartsWith s "/" = false) := by
      rintro (rfl | hf)
      · exact absurd h (by decide)
      · rw [h] at hf
        exact Bool.noConfusion hf
    simp only [loginNextTarget, if_neg hne]
  · intro h
    simp only [loginNextTarget, if_pos (Or.inr h)]

/-- Witness for C6 on a concrete originally-requested path. -/
theorem spec_c6_login_redirect_witness :
    loginNextTarget (some "/view/dog-001") = "/view/dog-001" :=
  (spec_c6_login_redirect "/view/dog-001").2.1 (by decide)
